import Mathlib

/-!
# Verification of the foxholed detection pipeline

A shallow embedding of the position-detection core of the `foxholed`
repository (`src/foxholed/detector.py`, `src/foxholed/detection_worker.py`,
`src/foxholed/map_data.py`, `src/foxholed/config.py`) together with proofs
about it.

Modelling conventions:
* Python/NumPy floats are modelled as exact rationals (`ℚ`); decimal literals
  are read exactly, binary-float rounding of intermediate arithmetic is not
  modelled (no claim below depends on it).
* Machine integers are `ℤ`/`ℕ`.
* External OpenCV calls (`cv2.findContours`, `cv2.contourArea`,
  `cv2.matchTemplate`/`cv2.minMaxLoc`, `cv2.resize`) are inputs of the
  embedding: a frame carries the contour list the cv2 front-end extracts from
  it, a contour carries its externally computed areas, and the
  template-matching score surface is an oracle argument.  `cv2.moments` is
  modelled by point-mass moments over the contour's points.
-/

namespace Foxholed

/-- Python's `int()` applied to a rational value: truncation toward zero. -/
def pyInt (q : ℚ) : ℤ := if 0 ≤ q then ⌊q⌋ else -⌊-q⌋

/-- `config.py`: the numeric fields of `Config` used by the detection core,
with the defaults from the source. -/
structure Config where
  capture_interval_ms : ℕ := 500
  match_confidence_threshold : ℚ := 0.7
  triangle_hue_low : ℕ := 10
  triangle_hue_high : ℕ := 25
  triangle_sat_min : ℕ := 150
  triangle_val_min : ℕ := 180
  triangle_min_area : ℚ := 30
  triangle_max_area : ℚ := 2000
  crop_radius : ℤ := 200
deriving DecidableEq

/-- `detector.py`: the `Position` dataclass. -/
structure Position where
  region_name : String
  grid_x : ℚ
  grid_y : ℚ
  confidence : ℚ
  method : String := "template"
deriving DecidableEq

/-- `map_data.py`: the names of the regions in `REGIONS`; the key set of
`REGION_BY_NAME` (region membership is all the detector reads from it).
The fourth name of row 1 reproduces the source file's literal bytes. -/
def regionNames : List String :=
  ["Oarbreaker Isles", "Fisherman's Row", "Stema Landing", "Nevish Line",
   "Callum's Cape", "Speaking Woods", "Basin Sionnach", "Howl County",
   "Viper Pit", "Marban Hollow", "The Moors",
   "Godcrofts", "Tempest Island", "The Linn of Mercy", "Loch MÃ³r",
   "The Heartlands", "Stonecradle", "Farranac Coast", "Westgate",
   "Reaching Trail", "Umbral Wildwood", "Morgen's Crossing",
   "The Fingers", "Terminus", "Acrithia", "Ash Fields", "Allod's Bight",
   "Weathered Expanse", "The Clahstra", "Shackled Chasm", "Endless Shore",
   "Deadlands", "Origin",
   "Kalokai", "Red River", "Great March", "Sableport", "Throne of Rain"]

/-- A contour as produced by `cv2.findContours` on the thresholded mask:
its point list together with the externally computed `cv2.contourArea` of
the contour and of its convex hull. -/
structure Contour where
  pts : List (ℤ × ℤ)
  area : ℚ
  hullArea : ℚ
deriving DecidableEq

/-- `cv2.moments` `m00`, modelled as point-mass moments over the contour's
points (the real centroid likewise lies in the contour's bounding box). -/
def Contour.m00 (c : Contour) : ℚ := c.pts.length

/-- `cv2.moments` `m10` (point-mass model). -/
def Contour.m10 (c : Contour) : ℚ := ((c.pts.map Prod.fst).sum : ℤ)

/-- `cv2.moments` `m01` (point-mass model). -/
def Contour.m01 (c : Contour) : ℚ := ((c.pts.map Prod.snd).sum : ℤ)

/-- `(int(M["m10"] / M["m00"]), int(M["m01"] / M["m00"]))`. -/
def Contour.centroid (c : Contour) : ℤ × ℤ :=
  (pyInt (c.m10 / c.m00), pyInt (c.m01 / c.m00))

/-- Solidity of a contour: `area / hull_area`.  The source skips contours
with `hull_area == 0` before dividing; in `ℚ` division by zero is `0`,
which the `> 0.4` filter rejects just the same. -/
def solidity (c : Contour) : ℚ := c.area / c.hullArea

/-- The two contour filters of `find_player_triangle`: area within the
configured `[min_area, max_area]` band and solidity above 0.4. -/
def survives (cfg : Config) (c : Contour) : Prop :=
  cfg.triangle_min_area ≤ c.area ∧ c.area ≤ cfg.triangle_max_area ∧
    solidity c > 0.4

instance (cfg : Config) (c : Contour) : Decidable (survives cfg c) := by
  unfold survives
  infer_instance

/-- One iteration of the contour loop in
`PositionDetector.find_player_triangle` (detector.py lines 126-147).
State is `(best_candidate, best_solidity)`. -/
def fptStep (cfg : Config) (s : Option (ℤ × ℤ) × ℚ) (c : Contour) :
    Option (ℤ × ℤ) × ℚ :=
  if c.area < cfg.triangle_min_area ∨ c.area > cfg.triangle_max_area then s
  else if c.hullArea = 0 then s
  else
    let solidity := c.area / c.hullArea
    if solidity > 0.4 ∧ solidity > s.2 then
      if c.m00 > 0 then (some c.centroid, solidity) else s
    else s

/-- `PositionDetector.find_player_triangle`, as a function of the contour
list that the cv2 front-end (HSV threshold, morphological open/close,
`findContours`) extracts from the frame. -/
def find_player_triangle (cfg : Config) (contours : List Contour) :
    Option (ℤ × ℤ) :=
  (contours.foldl (fptStep cfg) (none, 0)).1

/-- The slice bounds computed by `PositionDetector._crop_around`. -/
structure CropBounds where
  x1 : ℤ
  y1 : ℤ
  x2 : ℤ
  y2 : ℤ
deriving DecidableEq

/-- `PositionDetector._crop_around` (detector.py lines 155-170): the crop's
slice bounds and the marker's coordinates in the crop's local frame. -/
def crop_around (cfg : Config) (h w cx cy : ℤ) : CropBounds × (ℤ × ℤ) :=
  let r := cfg.crop_radius
  let x1 := max 0 (cx - r)
  let y1 := max 0 (cy - r)
  let x2 := min w (cx + r)
  let y2 := min h (cy + r)
  (⟨x1, y1, x2, y2⟩, (cx - x1, cy - y1))

/-- The shape of a grayscale image: `(rows, cols)`. -/
structure GDims where
  h : ℕ
  w : ℕ
deriving DecidableEq

/-- The `(max_val, max_loc)` pair that `cv2.minMaxLoc` extracts from a
`cv2.matchTemplate` result; `maxLoc` is an `(x, y)` point. -/
structure MatchOut where
  maxVal : ℚ
  maxLoc : ℤ × ℤ
deriving DecidableEq

/-- The shape of the scaled template (detector.py lines 199-204):
unchanged at scale 1.0, otherwise
`(max(1, int(h * scale)), max(1, int(w * scale)))` via `cv2.resize`. -/
def scaledDims (t : GDims) (s : ℚ) : GDims :=
  if s = 1 then t
  else ⟨(max 1 (pyInt (t.h * s))).toNat, (max 1 (pyInt (t.w * s))).toNat⟩

/-- The running best match of `_match_templates`:
`(best_score, best_name, best_loc, best_template_shape)`,
where the shape is `(w, h)` as in the source. -/
structure Best where
  score : ℚ
  name : String
  loc : ℤ × ℤ
  shape : ℕ × ℕ
deriving DecidableEq

/-- `scales = [0.75, 0.85, 1.0, 1.15, 1.25]` (detector.py line 195). -/
def scales : List ℚ := [0.75, 0.85, 1.0, 1.15, 1.25]

/-- One iteration of the inner scale loop of `_match_templates`
(detector.py lines 198-216).  `mt name s` is the external
`cv2.matchTemplate`/`cv2.minMaxLoc` outcome of matching template `name`
scaled by `s` against the grayscale crop. -/
def scaleStep (mt : String → ℚ → MatchOut) (gray : GDims) (name : String)
    (t : GDims) (b : Best) (s : ℚ) : Best :=
  let sc := scaledDims t s
  if sc.h > gray.h ∨ sc.w > gray.w then b
  else
    let r := mt name s
    if r.maxVal > b.score then ⟨r.maxVal, name, r.maxLoc, (sc.w, sc.h)⟩ else b

/-- The full template × scale search of `_match_templates`
(detector.py lines 191-218). -/
def runSearch (mt : String → ℚ → MatchOut) (gray : GDims)
    (templates : List (String × GDims)) : Best :=
  templates.foldl (fun b nt => scales.foldl (scaleStep mt gray nt.1 nt.2) b)
    ⟨0, "", (0, 0), (0, 0)⟩

/-- `PositionDetector._match_templates` (detector.py lines 176-244). -/
def match_templates (cfg : Config) (templates : List (String × GDims))
    (mt : String → ℚ → MatchOut) (gray : GDims) (marker_x marker_y : ℤ) :
    Option Position :=
  if templates = [] then none
  else
    let b := runSearch mt gray templates
    if b.score ≥ cfg.match_confidence_threshold ∧ b.name ≠ "" then
      if b.name ∈ regionNames then
        let template_w : ℚ := b.shape.1
        let template_h : ℚ := b.shape.2
        let template_cx : ℚ := b.loc.1 + template_w / 2
        let template_cy : ℚ := b.loc.2 + template_h / 2
        some ⟨b.name, (marker_x - template_cx) / template_w,
              (marker_y - template_cy) / template_h, b.score, "template"⟩
      else none
    else none

/-- A captured frame: its shape and the contours the external cv2 front-end
extracts from it. -/
structure Frame where
  h : ℤ
  w : ℤ
  contours : List Contour

/-- `PositionDetector.detect` (detector.py lines 68-94): empty-frame guard,
marker location, crop, grayscale conversion (shape-preserving), template
match.  `mt` is the match oracle for the resulting grayscale crop. -/
def detect (cfg : Config) (templates : List (String × GDims))
    (mt : String → ℚ → MatchOut) (frame : Option Frame) : Option Position :=
  match frame with
  | none => none
  | some f =>
    if f.h * f.w = 0 then none
    else
      match find_player_triangle cfg f.contours with
      | none => none
      | some (cx, cy) =>
        let cr := crop_around cfg f.h f.w cx cy
        let gray : GDims := ⟨(cr.1.y2 - cr.1.y1).toNat, (cr.1.x2 - cr.1.x1).toNat⟩
        match_templates cfg templates mt gray cr.2.1 cr.2.2

/-- Case-insensitive substring test (Python `name.lower() in text.lower()`). -/
def containsCI (hay needle : String) : Bool :=
  decide ((needle.toList.map Char.toLower) <:+: (hay.toList.map Char.toLower))

/-- Modelled from the spec: `TextFallbackRecognizer.recognize` (spec §4.5),
absent from the source tree.  The OCR backend's output is the `ocrText`
argument (`none` = backend unavailable or recognition failure); the
recognized text is scanned case-insensitively against every registry name,
returning the first match with fixed confidence 0.5. -/
def recognize (ocrText : Option String) : Option (String × ℚ) :=
  match ocrText with
  | none => none
  | some txt => (regionNames.find? fun n => containsCI txt n).map fun n => (n, 0.5)

/-- Modelled from the spec: the `detect` pipeline of spec §4.6 including the
OCR fallback step ("else run OCR fallback on the whole frame's grayscale
conversion → return OCR Position or None"); the fallback Position carries
confidence 0.5 and method "ocr" (grid offsets unspecified by the spec,
taken as 0). -/
def detect_spec (cfg : Config) (templates : List (String × GDims))
    (mt : String → ℚ → MatchOut) (ocrText : Option String)
    (frame : Option Frame) : Option Position :=
  match frame with
  | none => none
  | some f =>
    if f.h * f.w = 0 then none
    else
      match find_player_triangle cfg f.contours with
      | none => none
      | some (cx, cy) =>
        let cr := crop_around cfg f.h f.w cx cy
        let gray : GDims := ⟨(cr.1.y2 - cr.1.y1).toNat, (cr.1.x2 - cr.1.x1).toNat⟩
        match match_templates cfg templates mt gray cr.2.1 cr.2.2 with
        | some p => some p
        | none =>
          match recognize ocrText with
          | some nc => some ⟨nc.1, 0, 0, nc.2, "ocr"⟩
          | none => none

/-!
## Template store reload

`PositionDetector.reload_templates` (detector.py lines 43-62) executes
`self._templates.clear()` and then `self._load_templates()`, which inserts
the decoded images one directory entry at a time.  We model the table as an
association list and record every table state a concurrent reader of
`self._templates` could observe during the call: the table before the call,
the empty table right after `clear()`, and the table after each processed
directory entry.  A directory entry is a file stem together with the result
of `cv2.imread` (`none` = unreadable, skipped). -/

/-- Processing of one directory entry by `_load_templates`. -/
def loadStep (t : List (String × GDims)) (f : String × Option GDims) :
    List (String × GDims) :=
  match f.2 with
  | some img => t ++ [(f.1, img)]
  | none => t

/-- The table `_load_templates` builds from the directory listing. -/
def load_templates (files : List (String × Option GDims)) :
    List (String × GDims) :=
  files.foldl loadStep []

/-- The sequence of table states observable during `reload_templates()`. -/
def reload_states (old : List (String × GDims))
    (files : List (String × Option GDims)) : List (List (String × GDims)) :=
  old :: List.scanl loadStep [] files

/-!
## Detection worker: shutdown trace model

`DetectionWorker` (detection_worker.py): `run` loops `while self._running`,
emitting events each tick; `stop` sets `self._running = False` and calls
`QThread.wait()`, which blocks until `run` has returned.  We model the two
threads' interleavings as traces of atomic actions over a shared state:
`tickEmit` is the loop body (tick plus its signal emissions), `loopCheck`
the `while self._running` test, `stopSet` the write in `stop()`, and
`stopWait` the return of `QThread.wait()` (enabled, per Qt's contract, only
once the loop has exited). -/

/-- Worker control location: inside the loop body, at the loop condition, or
returned from `run`. -/
inductive WPhase
  | body
  | check
  | exited
deriving DecidableEq

/-- Shared state of the worker thread and the caller of `stop()`. -/
structure WState where
  running : Bool
  phase : WPhase
  emits : ℕ
  stopCalled : Bool
  stopReturned : Bool
deriving DecidableEq

/-- Atomic actions of the two threads. -/
inductive WAct
  | tickEmit
  | loopCheck
  | stopSet
  | stopWait
deriving DecidableEq

/-- Interleaving semantics: `none` means the action is not enabled. -/
def wstep (s : WState) : WAct → Option WState
  | .tickEmit =>
    if s.phase = .body then
      some { s with emits := s.emits + 1, phase := .check }
    else none
  | .loopCheck =>
    if s.phase = .check then
      some { s with phase := if s.running then .body else .exited }
    else none
  | .stopSet =>
    if s.stopCalled then none
    else some { s with running := false, stopCalled := true }
  | .stopWait =>
    if s.stopCalled ∧ s.phase = .exited ∧ ¬s.stopReturned then
      some { s with stopReturned := true }
    else none

/-- Run a sequence of actions, failing if any is not enabled. -/
def runTrace (s : WState) : List WAct → Option WState
  | [] => some s
  | a :: as =>
    match wstep s a with
    | none => none
    | some s' => runTrace s' as

/-- The state right after `run` sets `self._running = True` and enters the
loop body. -/
def initW : WState := ⟨true, .body, 0, false, false⟩

/-!
## Detection worker: tick fault model

The loop body of `DetectionWorker.run` (detection_worker.py lines 56-61)
wraps `self._tick()` in `try/except Exception`, logging the failure and
emitting a `status_changed` event, then proceeds to the sleep loop and the
next iteration.  A tick's behaviour is the list of events it emitted before
returning or raising, paired with the raised exception message if any. -/

/-- An event emitted by the worker, or a log record. -/
inductive WEvent
  | position (p : Option Position)
  | status (s : String)
  | captureStatus (s : String)
  | frameCaptured
  | logged (s : String)
deriving DecidableEq

/-- The events one loop iteration contributes: the tick's own events, then —
when the tick raised — the `log.exception` record and the
`status_changed.emit("Detection error")` of the `except` branch. -/
def tickEvents : List WEvent × Option String → List WEvent
  | (evs, none) => evs
  | (evs, some _) => evs ++ [.logged "Detection tick failed", .status "Detection error"]

/-- The events of `n` loop iterations of `run`, for a stream of tick
behaviours. -/
def runEvents (ticks : ℕ → List WEvent × Option String) : ℕ → List WEvent
  | 0 => []
  | Nat.succ n => tickEvents (ticks 0) ++ runEvents (fun i => ticks (i + 1)) n

/-!
## Concrete inputs used by witnesses and counterexamples

`mtHit loc` is a match oracle under which the (unscaled) template is found
with perfect correlation at `loc` — as `cv2.matchTemplate` reports when the
crop contains an exact copy of the template at `loc`; `mtMiss` is an oracle
under which every correlation is zero. -/

/-- Perfect correlation at `loc` for the unscaled template, zero otherwise. -/
def mtHit (loc : ℤ × ℤ) : String → ℚ → MatchOut :=
  fun _ s => if s = 1 then ⟨1, loc⟩ else ⟨0, (0, 0)⟩

/-- Zero correlation everywhere: the template matcher finds nothing. -/
def mtMiss : String → ℚ → MatchOut := fun _ _ => ⟨0, (0, 0)⟩

/-- A single stored 10×10 template named after a registered region. -/
def tDeadlands : List (String × GDims) := [("Deadlands", ⟨10, 10⟩)]

/-- A 120×120 frame whose mask yields one solid in-band contour at (100, 100). -/
def frameMarker100 : Frame := ⟨120, 120, [⟨[(100, 100)], 100, 100⟩]⟩

/-- A 120×120 frame whose mask yields one solid in-band contour at (60, 60). -/
def frameMarker60 : Frame := ⟨120, 120, [⟨[(60, 60)], 100, 100⟩]⟩

/-!
## Helper lemmas
-/

theorem foldl_preserve {α β : Type _} (P : β → Prop) (f : β → α → β)
    (hf : ∀ b a, P b → P (f b a)) :
    ∀ (l : List α) (b : β), P b → P (l.foldl f b) := by
  intro l
  induction l with
  | nil => intro b hb; simpa using hb
  | cons a l ih => intro b hb; simpa using ih _ (hf b a hb)

theorem scaleStep_inv (mt : String → ℚ → MatchOut) (gray : GDims)
    (name : String) (t : GDims) (b : Best) (s : ℚ)
    (hb : 0 ≤ b.score ∧ (b.name ≠ "" → 0 < b.score)) :
    0 ≤ (scaleStep mt gray name t b s).score ∧
      ((scaleStep mt gray name t b s).name ≠ "" →
        0 < (scaleStep mt gray name t b s).score) := by
  simp only [scaleStep]
  split_ifs with h1 h2
  · exact hb
  · exact ⟨le_of_lt (lt_of_le_of_lt hb.1 h2), fun _ => lt_of_le_of_lt hb.1 h2⟩
  · exact hb

theorem runSearch_inv (mt : String → ℚ → MatchOut) (gray : GDims)
    (templates : List (String × GDims)) :
    0 ≤ (runSearch mt gray templates).score ∧
      ((runSearch mt gray templates).name ≠ "" →
        0 < (runSearch mt gray templates).score) := by
  unfold runSearch
  apply foldl_preserve
    (P := fun b : Best => 0 ≤ b.score ∧ (b.name ≠ "" → 0 < b.score))
  · intro b nt hb
    exact foldl_preserve _ _ (fun b' s hb' => scaleStep_inv mt gray nt.1 nt.2 b' s hb')
      scales b hb
  · exact ⟨le_refl 0, fun h => absurd rfl h⟩

theorem match_templates_some_eq {cfg : Config} {templates : List (String × GDims)}
    {mt : String → ℚ → MatchOut} {gray : GDims} {mx my : ℤ} {p : Position}
    (hm : match_templates cfg templates mt gray mx my = some p) :
    templates ≠ [] ∧
    (runSearch mt gray templates).score ≥ cfg.match_confidence_threshold ∧
    (runSearch mt gray templates).name ≠ "" ∧
    (runSearch mt gray templates).name ∈ regionNames ∧
    p = ⟨(runSearch mt gray templates).name,
         ((mx : ℚ) - (((runSearch mt gray templates).loc.1 : ℚ) +
            ((runSearch mt gray templates).shape.1 : ℚ) / 2)) /
           ((runSearch mt gray templates).shape.1 : ℚ),
         ((my : ℚ) - (((runSearch mt gray templates).loc.2 : ℚ) +
            ((runSearch mt gray templates).shape.2 : ℚ) / 2)) /
           ((runSearch mt gray templates).shape.2 : ℚ),
         (runSearch mt gray templates).score, "template"⟩ := by
  simp only [match_templates] at hm
  split_ifs at hm with h1 h2 h3
  exact ⟨h1, h2.1, h2.2, h3, (Option.some.inj hm).symm⟩

theorem match_templates_none_of_unregistered {cfg : Config}
    {templates : List (String × GDims)} {mt : String → ℚ → MatchOut}
    {gray : GDims} (mx my : ℤ)
    (h : (runSearch mt gray templates).name ∉ regionNames) :
    match_templates cfg templates mt gray mx my = none := by
  cases hmt : match_templates cfg templates mt gray mx my with
  | none => rfl
  | some p => exact absurd (match_templates_some_eq hmt).2.2.2.1 h

/-!
## Claim C9 — a returned match meets the threshold, has positive
confidence, and method "template"
-/

/-- C9: whenever `_match_templates` returns a `Position`, its confidence is
at least the configured `match_confidence_threshold`, strictly positive (the
accepted best score strictly exceeded the initial `0.0`), and its method is
`"template"`. -/
theorem match_confidence_threshold_met (cfg : Config)
    (templates : List (String × GDims)) (mt : String → ℚ → MatchOut)
    (gray : GDims) (mx my : ℤ) (p : Position)
    (hm : match_templates cfg templates mt gray mx my = some p) :
    p.confidence ≥ cfg.match_confidence_threshold ∧ 0 < p.confidence ∧
      p.method = "template" := by
  obtain ⟨-, hthr, hname, -, hp⟩ := match_templates_some_eq hm
  have hpos := (runSearch_inv mt gray templates).2 hname
  subst hp
  exact ⟨hthr, hpos, rfl⟩

theorem match_confidence_threshold_met_witness :
    (Position.confidence ⟨"Deadlands", 93/14, 93/14, 9/10, "template"⟩ ≥
        (Config.match_confidence_threshold
          { match_confidence_threshold := 1/2 }) ∧
      0 < Position.confidence ⟨"Deadlands", 93/14, 93/14, 9/10, "template"⟩ ∧
      Position.method ⟨"Deadlands", 93/14, 93/14, 9/10, "template"⟩ =
        "template") :=
  match_confidence_threshold_met { match_confidence_threshold := 1/2 }
    [("Deadlands", ⟨10, 10⟩)] (fun _ _ => ⟨9/10, (0, 0)⟩) ⟨100, 100⟩ 50 50
    ⟨"Deadlands", 93/14, 93/14, 9/10, "template"⟩ (by
      norm_num [match_templates, runSearch, scales, scaleStep, scaledDims,
        pyInt, regionNames, Int.toNat]
      decide)

theorem detect_some_eq {cfg : Config} {templates : List (String × GDims)}
    {mt : String → ℚ → MatchOut} {frame : Option Frame} {p : Position}
    (h : detect cfg templates mt frame = some p) :
    ∃ gray mx my, match_templates cfg templates mt gray mx my = some p := by
  cases frame with
  | none => exact Option.noConfusion h
  | some f =>
    simp only [detect] at h
    split_ifs at h with h0
    cases hfpt : find_player_triangle cfg f.contours with
    | none => rw [hfpt] at h; exact Option.noConfusion h
    | some pt =>
      obtain ⟨cx, cy⟩ := pt
      rw [hfpt] at h
      exact ⟨_, _, _, h⟩

/-!
## Claim C3 — returned region names are registered
-/

/-- C3: any `Position` the pipeline returns names a region present in the
registry (`REGION_BY_NAME`), and a best-scoring match whose template name is
not a registered region is discarded and yields `None`, regardless of its
score. -/
theorem returned_region_registered (cfg : Config)
    (templates : List (String × GDims)) (mt : String → ℚ → MatchOut)
    (frame : Option Frame) (gray : GDims) (mx my : ℤ) :
    (∀ p, detect cfg templates mt frame = some p →
      p.region_name ∈ regionNames) ∧
    ((runSearch mt gray templates).name ∉ regionNames →
      match_templates cfg templates mt gray mx my = none) := by
  constructor
  · intro p hp
    obtain ⟨gray', mx', my', hm⟩ := detect_some_eq hp
    obtain ⟨-, -, -, hmem, hpeq⟩ := match_templates_some_eq hm
    subst hpeq
    exact hmem
  · exact fun hn => match_templates_none_of_unregistered mx my hn

theorem returned_region_registered_witness :
    match_templates { match_confidence_threshold := 1/2 }
      [("NotARegion", ⟨10, 10⟩)] (fun _ _ => ⟨1, (0, 0)⟩) ⟨100, 100⟩ 50 50 =
      none :=
  (returned_region_registered { match_confidence_threshold := 1/2 }
      [("NotARegion", ⟨10, 10⟩)] (fun _ _ => ⟨1, (0, 0)⟩) none ⟨100, 100⟩
      50 50).2 (by
    norm_num [runSearch, scales, scaleStep, scaledDims, pyInt, Int.toNat,
      regionNames]
    decide)

/-!
## Claim C4 — crop bounds are clamped to the frame
-/

/-- C4: `_crop_around` computes the slice bounds
`x1 = max 0 (cx - r)`, `y1 = max 0 (cy - r)`, `x2 = min w (cx + r)`,
`y2 = min h (cy + r)`; for a marker inside the frame these bounds lie within
the frame, and the marker's local coordinates are its original coordinates
minus the clamped crop origin. -/
theorem crop_around_spec (cfg : Config) (h w cx cy : ℤ)
    (hr : 0 ≤ cfg.crop_radius) (hcx0 : 0 ≤ cx) (hcxw : cx < w)
    (hcy0 : 0 ≤ cy) (hcyh : cy < h) :
    (crop_around cfg h w cx cy).1.x1 = max 0 (cx - cfg.crop_radius) ∧
    (crop_around cfg h w cx cy).1.y1 = max 0 (cy - cfg.crop_radius) ∧
    (crop_around cfg h w cx cy).1.x2 = min w (cx + cfg.crop_radius) ∧
    (crop_around cfg h w cx cy).1.y2 = min h (cy + cfg.crop_radius) ∧
    0 ≤ (crop_around cfg h w cx cy).1.x1 ∧
    (crop_around cfg h w cx cy).1.x1 ≤ (crop_around cfg h w cx cy).1.x2 ∧
    (crop_around cfg h w cx cy).1.x2 ≤ w ∧
    0 ≤ (crop_around cfg h w cx cy).1.y1 ∧
    (crop_around cfg h w cx cy).1.y1 ≤ (crop_around cfg h w cx cy).1.y2 ∧
    (crop_around cfg h w cx cy).1.y2 ≤ h ∧
    (crop_around cfg h w cx cy).2 =
      (cx - (crop_around cfg h w cx cy).1.x1,
       cy - (crop_around cfg h w cx cy).1.y1) := by
  refine ⟨rfl, rfl, rfl, rfl, ?_, ?_, ?_, ?_, ?_, ?_, rfl⟩
  · show (0 : ℤ) ≤ max 0 (cx - cfg.crop_radius); omega
  · show max 0 (cx - cfg.crop_radius) ≤ min w (cx + cfg.crop_radius); omega
  · show min w (cx + cfg.crop_radius) ≤ w; omega
  · show (0 : ℤ) ≤ max 0 (cy - cfg.crop_radius); omega
  · show max 0 (cy - cfg.crop_radius) ≤ min h (cy + cfg.crop_radius); omega
  · show min h (cy + cfg.crop_radius) ≤ h; omega

theorem crop_around_spec_witness :
    0 ≤ (crop_around {} 400 400 10 10).1.x1 ∧
      (crop_around {} 400 400 10 10).1.x2 ≤ 400 :=
  ⟨(crop_around_spec {} 400 400 10 10 (by decide) (by decide) (by decide)
      (by decide) (by decide)).2.2.2.2.1,
   (crop_around_spec {} 400 400 10 10 (by decide) (by decide) (by decide)
      (by decide) (by decide)).2.2.2.2.2.2.1⟩

theorem runSearch_mtHit (loc : ℤ × ℤ) :
    runSearch (mtHit loc) ⟨120, 120⟩ tDeadlands =
      ⟨1, "Deadlands", loc, (10, 10)⟩ := by
  norm_num [runSearch, scales, scaleStep, scaledDims, pyInt, mtHit,
    tDeadlands, Int.toNat]

/-!
## Claim C2 — grid offsets and the interval [-1/2, 1/2]
-/

/-- C2 counterexample: the pipeline returns a `Position` whose grid offsets
lie far outside `[-1/2, 1/2]`.  The 10×10 template is found (perfect score)
at the crop's top-left corner while the marker sits at (100, 100), so
`grid_x = grid_y = (100 - 5)/10 = 19/2`. -/
theorem grid_offset_unclamped_cex :
    detect {} tDeadlands (mtHit (0, 0)) (some frameMarker100) =
      some ⟨"Deadlands", 19/2, 19/2, 1, "template"⟩ ∧
    ¬((19/2 : ℚ) ≤ 1/2) := by
  refine ⟨?_, by norm_num⟩
  norm_num [detect, frameMarker100, find_player_triangle, fptStep,
    Contour.m00, Contour.m10, Contour.m01, Contour.centroid, crop_around,
    max_def, min_def, match_templates, runSearch, scales, scaleStep,
    scaledDims, pyInt, mtHit, tDeadlands, Int.toNat, regionNames]
  exact fun h => absurd h (by decide)

/-- C2 (amended): the matcher does not clamp grid offsets; they lie within
`[-1/2, 1/2]` exactly when the marker falls inside the matched template's
rectangle — in particular when the template is centered at the marker. -/
theorem grid_offset_bounds_in_match_rect (cfg : Config)
    (templates : List (String × GDims)) (mt : String → ℚ → MatchOut)
    (gray : GDims) (mx my : ℤ) (p : Position)
    (hm : match_templates cfg templates mt gray mx my = some p)
    (hw : 0 < (runSearch mt gray templates).shape.1)
    (hh : 0 < (runSearch mt gray templates).shape.2)
    (hx1 : (runSearch mt gray templates).loc.1 ≤ mx)
    (hx2 : mx ≤ (runSearch mt gray templates).loc.1 +
      (runSearch mt gray templates).shape.1)
    (hy1 : (runSearch mt gray templates).loc.2 ≤ my)
    (hy2 : my ≤ (runSearch mt gray templates).loc.2 +
      (runSearch mt gray templates).shape.2) :
    (-(1/2) ≤ p.grid_x ∧ p.grid_x ≤ 1/2) ∧
      (-(1/2) ≤ p.grid_y ∧ p.grid_y ≤ 1/2) := by
  obtain ⟨-, -, -, -, hpeq⟩ := match_templates_some_eq hm
  subst hpeq
  dsimp only
  have hwq : (0 : ℚ) < ((runSearch mt gray templates).shape.1 : ℚ) := by
    exact_mod_cast hw
  have hhq : (0 : ℚ) < ((runSearch mt gray templates).shape.2 : ℚ) := by
    exact_mod_cast hh
  have hx1q : ((runSearch mt gray templates).loc.1 : ℚ) ≤ (mx : ℚ) := by
    exact_mod_cast hx1
  have hx2q : (mx : ℚ) ≤ ((runSearch mt gray templates).loc.1 : ℚ) +
      ((runSearch mt gray templates).shape.1 : ℚ) := by exact_mod_cast hx2
  have hy1q : ((runSearch mt gray templates).loc.2 : ℚ) ≤ (my : ℚ) := by
    exact_mod_cast hy1
  have hy2q : (my : ℚ) ≤ ((runSearch mt gray templates).loc.2 : ℚ) +
      ((runSearch mt gray templates).shape.2 : ℚ) := by exact_mod_cast hy2
  refine ⟨⟨?_, ?_⟩, ⟨?_, ?_⟩⟩
  · rw [le_div_iff₀ hwq]; linarith
  · rw [div_le_iff₀ hwq]; linarith
  · rw [le_div_iff₀ hhq]; linarith
  · rw [div_le_iff₀ hhq]; linarith

theorem grid_offset_bounds_in_match_rect_witness :
    (-(1/2) ≤ Position.grid_x ⟨"Deadlands", 0, -(1/5), 1, "template"⟩ ∧
      Position.grid_x ⟨"Deadlands", 0, -(1/5), 1, "template"⟩ ≤ 1/2) ∧
    (-(1/2) ≤ Position.grid_y ⟨"Deadlands", 0, -(1/5), 1, "template"⟩ ∧
      Position.grid_y ⟨"Deadlands", 0, -(1/5), 1, "template"⟩ ≤ 1/2) :=
  grid_offset_bounds_in_match_rect {} tDeadlands (mtHit (45, 47)) ⟨120, 120⟩
    50 50 ⟨"Deadlands", 0, -(1/5), 1, "template"⟩
    (by
      simp only [match_templates, runSearch_mtHit]
      norm_num [regionNames]
      exact ⟨by simp [tDeadlands], fun h => absurd h (by decide)⟩)
    (by simp [runSearch_mtHit]) (by simp [runSearch_mtHit])
    (by simp [runSearch_mtHit]) (by simp [runSearch_mtHit])
    (by simp [runSearch_mtHit]) (by simp [runSearch_mtHit])

/-!
## Claim C1 — OCR fallback
-/

/-- C1 counterexample: on a frame with a located marker where template
matching fails, the source's `detect` returns `None` without consulting any
OCR recognizer, whereas the spec's pipeline (`detect_spec`, from spec
§4.5-4.6) would return an OCR-derived Position with confidence 0.5 and
method "ocr" on the same input. -/
theorem ocr_fallback_missing_cex :
    detect {} tDeadlands mtMiss (some frameMarker60) = none ∧
    detect_spec {} tDeadlands mtMiss (some "DEADLANDS") (some frameMarker60) =
      some ⟨"Deadlands", 0, 0, 1/2, "ocr"⟩ := by
  have hrec : (regionNames.find? fun n => containsCI "DEADLANDS" n) =
      some "Deadlands" := by decide
  constructor
  · norm_num [detect, frameMarker60, find_player_triangle, fptStep,
      Contour.m00, Contour.m10, Contour.m01, Contour.centroid, crop_around,
      max_def, min_def, match_templates, runSearch, scales, scaleStep,
      scaledDims, pyInt, mtMiss, tDeadlands, Int.toNat]
  · norm_num [detect_spec, frameMarker60, find_player_triangle, fptStep,
      Contour.m00, Contour.m10, Contour.m01, Contour.centroid, crop_around,
      max_def, min_def, match_templates, runSearch, scales, scaleStep,
      scaledDims, pyInt, mtMiss, tDeadlands, Int.toNat, recognize, hrec]

/-- C1 (amended): `detect` has no OCR fallback: every `Position` it returns
has method "template", and when the template matcher returns `None` on the
grayscale crop around a located marker, `detect` returns `None`. -/
theorem detect_no_ocr_fallback (cfg : Config)
    (templates : List (String × GDims)) (mt : String → ℚ → MatchOut)
    (frame : Option Frame) :
    (∀ p, detect cfg templates mt frame = some p → p.method = "template") ∧
    (∀ f cx cy, frame = some f → f.h * f.w ≠ 0 →
      find_player_triangle cfg f.contours = some (cx, cy) →
      match_templates cfg templates mt
        ⟨((crop_around cfg f.h f.w cx cy).1.y2 -
            (crop_around cfg f.h f.w cx cy).1.y1).toNat,
         ((crop_around cfg f.h f.w cx cy).1.x2 -
            (crop_around cfg f.h f.w cx cy).1.x1).toNat⟩
        (crop_around cfg f.h f.w cx cy).2.1
        (crop_around cfg f.h f.w cx cy).2.2 = none →
      detect cfg templates mt frame = none) := by
  constructor
  · intro p hp
    obtain ⟨g, a, b, hm⟩ := detect_some_eq hp
    obtain ⟨-, -, -, -, hpeq⟩ := match_templates_some_eq hm
    subst hpeq
    rfl
  · intro f cx cy hf hsz hfpt hmt
    subst hf
    simp only [detect]
    rw [if_neg hsz, hfpt]
    exact hmt

theorem detect_no_ocr_fallback_witness :
    detect {} tDeadlands mtMiss (some frameMarker100) = none :=
  (detect_no_ocr_fallback {} tDeadlands mtMiss (some frameMarker100)).2
    frameMarker100 100 100 rfl (by decide)
    (by
      norm_num [find_player_triangle, frameMarker100, fptStep, Contour.m00,
        Contour.m10, Contour.m01, Contour.centroid, pyInt])
    (by
      norm_num [crop_around, frameMarker100, max_def, min_def,
        match_templates, runSearch, scales, scaleStep, scaledDims, pyInt,
        mtMiss, tDeadlands, Int.toNat])

/-!
## Claim C6 — template reload is not an atomic swap
-/

theorem foldl_loadStep_grows :
    ∀ (files : List (String × Option GDims)) (t : List (String × GDims)),
      t <+: files.foldl loadStep t := by
  intro files
  induction files with
  | nil => intro t; exact List.prefix_refl t
  | cons f fs ih =>
    intro t
    rw [List.foldl_cons]
    have hstep : t <+: loadStep t f := by
      obtain ⟨nm, img⟩ := f
      cases img with
      | none => exact List.prefix_refl t
      | some g => exact ⟨[(nm, g)], rfl⟩
    exact hstep.trans (ih (loadStep t f))

theorem scanl_loadStep_mem_grows :
    ∀ (files : List (String × Option GDims)) (t : List (String × GDims)) (s),
      s ∈ List.scanl loadStep t files → s <+: files.foldl loadStep t := by
  intro files
  induction files with
  | nil =>
    intro t s hs
    rw [List.scanl_nil, List.mem_singleton] at hs
    subst hs
    exact List.prefix_refl s
  | cons f fs ih =>
    intro t s hs
    rw [List.scanl_cons, List.singleton_append] at hs
    rcases List.mem_cons.mp hs with h | h
    · subst h
      exact foldl_loadStep_grows (f :: fs) s
    · rw [List.foldl_cons]
      exact ih (loadStep t f) s h

theorem getLast?_cons_of_getLast? {α : Type _} {l : List α} {a v : α}
    (h : l.getLast? = some v) : (a :: l).getLast? = some v := by
  cases l with
  | nil => exact Option.noConfusion h
  | cons b bs => rw [List.getLast?_cons_cons]; exact h

theorem scanl_loadStep_getLast? :
    ∀ (files : List (String × Option GDims)) (t : List (String × GDims)),
      (List.scanl loadStep t files).getLast? = some (files.foldl loadStep t) := by
  intro files
  induction files with
  | nil => intro t; rw [List.scanl_nil, List.foldl_nil]; rfl
  | cons f fs ih =>
    intro t
    rw [List.scanl_cons, List.singleton_append, List.foldl_cons]
    exact getLast?_cons_of_getLast? (ih (loadStep t f))

/-- C6 counterexample: during `reload_templates()` a concurrent reader can
observe a table state — the empty table right after `_templates.clear()`,
or the table holding only the first of two files — that is neither the
pre-reload table nor the completed new table.  The reload is therefore not
an atomic wholesale swap. -/
theorem reload_not_atomic_cex :
    ¬(∀ s ∈ reload_states [("Westgate", ⟨10, 10⟩)]
        [("Deadlands", some ⟨10, 10⟩), ("Westgate", some ⟨10, 10⟩)],
        s = [("Westgate", ⟨10, 10⟩)] ∨
        s = load_templates
          [("Deadlands", some ⟨10, 10⟩), ("Westgate", some ⟨10, 10⟩)]) := by
  decide

/-- C6 (amended): `reload_templates` clears the table in place and then
repopulates it one file at a time: the observable table states start at the
old table, every state after the clear is a prefix of the new table (the
first being the empty table), and the final state is the fully loaded new
table. -/
theorem reload_states_spec (old : List (String × GDims))
    (files : List (String × Option GDims)) :
    (reload_states old files).head? = some old ∧
    (reload_states old files).getLast? = some (load_templates files) ∧
    ∀ s ∈ (reload_states old files).tail, s <+: load_templates files := by
  refine ⟨rfl, ?_, ?_⟩
  · exact getLast?_cons_of_getLast? (scanl_loadStep_getLast? files [])
  · intro s hs
    exact scanl_loadStep_mem_grows files [] s hs

/-!
## Claim C7 — stop() returns only after loop exit; no events afterwards
-/

theorem wstep_preserves_inv {s s' : WState} {a : WAct}
    (h : wstep s a = some s')
    (hinv : s.stopReturned = true → s.phase = .exited) :
    s'.stopReturned = true → s'.phase = .exited := by
  cases a with
  | tickEmit =>
    simp only [wstep] at h
    split_ifs at h with hc
    obtain rfl := Option.some.inj h
    intro hsr
    have := hinv hsr
    rw [hc] at this
    exact WPhase.noConfusion this
  | loopCheck =>
    simp only [wstep] at h
    split_ifs at h with hc hr
    · obtain rfl := Option.some.inj h
      intro hsr
      have := hinv hsr
      rw [hc] at this
      exact WPhase.noConfusion this
    · obtain rfl := Option.some.inj h
      intro _
      rfl
  | stopSet =>
    simp only [wstep] at h
    split_ifs at h with hc
    obtain rfl := Option.some.inj h
    exact hinv
  | stopWait =>
    simp only [wstep] at h
    split_ifs at h with hc
    obtain rfl := Option.some.inj h
    exact fun _ => hc.2.1

theorem runTrace_preserves_inv :
    ∀ (acts : List WAct) (s s' : WState), runTrace s acts = some s' →
      (s.stopReturned = true → s.phase = .exited) →
      (s'.stopReturned = true → s'.phase = .exited) := by
  intro acts
  induction acts with
  | nil =>
    intro s s' h hinv
    obtain rfl := Option.some.inj h
    exact hinv
  | cons a as ih =>
    intro s s' h hinv
    simp only [runTrace] at h
    cases hw : wstep s a with
    | none => rw [hw] at h; exact Option.noConfusion h
    | some s₁ =>
      rw [hw] at h
      exact ih s₁ s' h (wstep_preserves_inv hw hinv)

theorem runTrace_exited_frozen :
    ∀ (acts : List WAct) (s s' : WState), s.phase = .exited →
      runTrace s acts = some s' →
      s'.phase = .exited ∧ s'.emits = s.emits := by
  intro acts
  induction acts with
  | nil =>
    intro s s' hp h
    obtain rfl := Option.some.inj h
    exact ⟨hp, rfl⟩
  | cons a as ih =>
    intro s s' hp h
    simp only [runTrace] at h
    cases hw : wstep s a with
    | none => rw [hw] at h; exact Option.noConfusion h
    | some s₁ =>
      rw [hw] at h
      have hs₁ : s₁.phase = .exited ∧ s₁.emits = s.emits := by
        cases a with
        | tickEmit =>
          simp only [wstep] at hw
          split_ifs at hw with hc
          rw [hp] at hc
          exact WPhase.noConfusion hc
        | loopCheck =>
          simp only [wstep] at hw
          split_ifs at hw with hc hr
          all_goals (rw [hp] at hc; exact WPhase.noConfusion hc)
        | stopSet =>
          simp only [wstep] at hw
          split_ifs at hw with hc
          obtain rfl := Option.some.inj hw
          exact ⟨hp, rfl⟩
        | stopWait =>
          simp only [wstep] at hw
          split_ifs at hw with hc
          obtain rfl := Option.some.inj hw
          exact ⟨hp, rfl⟩
      obtain ⟨h1, h2⟩ := hs₁
      have hfin := ih s₁ s' h1 h
      exact ⟨hfin.1, h2 ▸ hfin.2⟩

/-- C7: in the interleaving model of `DetectionWorker.run`/`stop`, once
`QThread.wait()` has returned (`stopReturned`), the loop has fully exited,
and in any continuation of the trace the emission counter never changes —
no further events are emitted after `stop()` returns. -/
theorem stop_returns_after_exit_and_silences (acts₁ acts₂ : List WAct)
    (s₁ s₂ : WState) (h1 : runTrace initW acts₁ = some s₁)
    (hs : s₁.stopReturned = true) (h2 : runTrace s₁ acts₂ = some s₂) :
    s₁.phase = .exited ∧ s₂.emits = s₁.emits := by
  have hinv := runTrace_preserves_inv acts₁ initW s₁ h1
    (fun hfalse => absurd hfalse (by simp [initW]))
  have hex := hinv hs
  exact ⟨hex, (runTrace_exited_frozen acts₂ s₁ s₂ hex h2).2⟩

theorem stop_returns_after_exit_and_silences_witness :
    (⟨false, .exited, 1, true, true⟩ : WState).phase = .exited ∧
      (⟨false, .exited, 1, true, true⟩ : WState).emits =
        (⟨false, .exited, 1, true, true⟩ : WState).emits :=
  stop_returns_after_exit_and_silences
    [.tickEmit, .stopSet, .loopCheck, .stopWait] []
    ⟨false, .exited, 1, true, true⟩ ⟨false, .exited, 1, true, true⟩
    (by decide) (by decide) (by decide)

/-!
## Claim C8 — tick-level faults never terminate the loop
-/

theorem runEvents_tick_mem :
    ∀ (n : ℕ) (ticks : ℕ → List WEvent × Option String) (j : ℕ), j < n →
      ∃ pre post,
        runEvents ticks n = pre ++ (tickEvents (ticks j) ++ post) := by
  intro n
  induction n with
  | zero => intro ticks j hj; exact absurd hj (Nat.not_lt_zero j)
  | succ m ih =>
    intro ticks j hj
    cases j with
    | zero =>
      refine ⟨[], runEvents (fun i => ticks (i + 1)) m, ?_⟩
      rw [runEvents, List.nil_append]
    | succ k =>
      obtain ⟨pre, post, hp⟩ :=
        ih (fun i => ticks (i + 1)) k (Nat.lt_of_succ_lt_succ hj)
      refine ⟨tickEvents (ticks 0) ++ pre, post, ?_⟩
      rw [runEvents, hp, List.append_assoc]

/-- C8: in the event model of `DetectionWorker.run`, every tick's
contribution appears in the loop's event stream — a fault in any earlier
tick never terminates the loop — and a faulting tick contributes exactly
its events followed by the exception log record and the "Detection error"
status event. -/
theorem tick_fault_does_not_stop_loop
    (ticks : ℕ → List WEvent × Option String) (n j : ℕ) (hj : j < n) :
    (∃ pre post,
      runEvents ticks n = pre ++ (tickEvents (ticks j) ++ post)) ∧
    (∀ evs msg, ticks j = (evs, some msg) →
      tickEvents (ticks j) =
        evs ++ [.logged "Detection tick failed", .status "Detection error"]) := by
  refine ⟨runEvents_tick_mem n ticks j hj, ?_⟩
  intro evs msg hjm
  rw [hjm]
  rfl

theorem tick_fault_does_not_stop_loop_witness :
    (∃ pre post,
      runEvents
        (fun i => if i = 0 then ([], some "boom")
          else ([WEvent.position none], none)) 2 =
        pre ++ (tickEvents
          ((fun i => if i = 0 then ([], some "boom")
            else ([WEvent.position none], none)) 1) ++ post)) ∧
    (∀ evs msg,
      (fun i => if i = 0 then ([], some "boom")
        else ([WEvent.position none], none)) 1 = (evs, some msg) →
      tickEvents
        ((fun i => if i = 0 then ([], some "boom")
          else ([WEvent.position none], none)) 1) =
        evs ++ [.logged "Detection tick failed", .status "Detection error"]) :=
  tick_fault_does_not_stop_loop
    (fun i => if i = 0 then ([], some "boom")
      else ([WEvent.position none], none)) 2 1 (by decide)

/-!
## Claims C5 and C10 — the contour loop of find_player_triangle
-/

theorem fptStep_cases (cfg : Config) (s : Option (ℤ × ℤ) × ℚ) (c : Contour)
    (hne : c.pts ≠ []) :
    (fptStep cfg s c = s ∧ (survives cfg c → solidity c ≤ s.2)) ∨
    (survives cfg c ∧ s.2 < solidity c ∧
      fptStep cfg s c = (some c.centroid, solidity c)) := by
  simp only [fptStep]
  split_ifs with h1 h2 h3 h4
  · left
    refine ⟨rfl, fun hs => ?_⟩
    rcases h1 with h | h
    · exact absurd hs.1 (not_le.mpr h)
    · exact absurd hs.2.1 (not_le.mpr h)
  · left
    refine ⟨rfl, fun hs => ?_⟩
    exfalso
    have hz : solidity c = 0 := by simp [solidity, h2]
    have := hs.2.2
    rw [hz] at this
    norm_num at this
  · right
    rw [not_or] at h1
    exact ⟨⟨not_lt.mp h1.1, not_lt.mp h1.2, h3.1⟩, h3.2, rfl⟩
  · exfalso
    apply h4
    have : 0 < c.pts.length := List.length_pos.mpr hne
    simp only [Contour.m00]
    exact_mod_cast this
  · left
    refine ⟨rfl, fun hs => ?_⟩
    rcases not_and_or.mp h3 with h | h
    · exact absurd hs.2.2 h
    · exact not_lt.mp h

theorem fpt_fold_spec (cfg : Config) :
    ∀ (l : List Contour) (s : Option (ℤ × ℤ) × ℚ),
      (∀ c ∈ l, c.pts ≠ []) →
      s.2 ≤ (l.foldl (fptStep cfg) s).2 ∧
      (((l.foldl (fptStep cfg) s).1 = s.1 ∧
          (l.foldl (fptStep cfg) s).2 = s.2) ∨
        ∃ c ∈ l, survives cfg c ∧
          (l.foldl (fptStep cfg) s).1 = some c.centroid ∧
          (l.foldl (fptStep cfg) s).2 = solidity c) ∧
      (∀ c ∈ l, survives cfg c → solidity c ≤ (l.foldl (fptStep cfg) s).2) := by
  intro l
  induction l with
  | nil =>
    intro s _
    exact ⟨le_refl _, Or.inl ⟨rfl, rfl⟩,
      fun c hc => absurd hc (List.not_mem_nil c)⟩
  | cons c rest ih =>
    intro s hne
    rw [List.foldl_cons]
    have hcne : c.pts ≠ [] := hne c (List.mem_cons_self c rest)
    have hrest : ∀ d ∈ rest, d.pts ≠ [] :=
      fun d hd => hne d (List.mem_cons_of_mem c hd)
    obtain ⟨ia, ib, ic⟩ := ih (fptStep cfg s c) hrest
    rcases fptStep_cases cfg s c hcne with ⟨heq, himp⟩ | ⟨hsurv, hlt, heq⟩
    · rw [heq] at ia ib ic ⊢
      refine ⟨ia, ?_, ?_⟩
      · rcases ib with hb | ⟨d, hd, hds, h1, h2⟩
        · exact Or.inl hb
        · exact Or.inr ⟨d, List.mem_cons_of_mem c hd, hds, h1, h2⟩
      · intro d hd hds
        rcases List.mem_cons.mp hd with rfl | hd'
        · exact le_trans (himp hds) ia
        · exact ic d hd' hds
    · rw [heq] at ia ib ic ⊢
      refine ⟨le_trans (le_of_lt hlt) ia, ?_, ?_⟩
      · rcases ib with ⟨h1, h2⟩ | ⟨d, hd, hds, h1, h2⟩
        · exact Or.inr ⟨c, List.mem_cons_self c rest, hsurv, h1, h2⟩
        · exact Or.inr ⟨d, List.mem_cons_of_mem c hd, hds, h1, h2⟩
      · intro d hd hds
        rcases List.mem_cons.mp hd with rfl | hd'
        · exact ia
        · exact ic d hd' hds

/-- C5: `find_player_triangle` excludes contours with area outside the
configured band regardless of solidity, rejects contours with solidity at
or below 0.4, selects among the surviving contours one of maximal solidity
and returns its moment centroid, and returns `None` when no contour
survives both filters. -/
theorem marker_filter_and_selection (cfg : Config) (contours : List Contour)
    (hne : ∀ c ∈ contours, c.pts ≠ []) :
    (∀ pt, find_player_triangle cfg contours = some pt →
      ∃ c ∈ contours, survives cfg c ∧ pt = c.centroid ∧
        ∀ c' ∈ contours, survives cfg c' → solidity c' ≤ solidity c) ∧
    ((∀ c ∈ contours, ¬ survives cfg c) →
      find_player_triangle cfg contours = none) := by
  obtain ⟨ha, hb, hc⟩ := fpt_fold_spec cfg contours (none, 0) hne
  constructor
  · intro pt hpt
    rw [find_player_triangle] at hpt
    rcases hb with ⟨h1, -⟩ | ⟨c, hcmem, hcs, h1, h2⟩
    · rw [h1] at hpt
      exact Option.noConfusion hpt
    · rw [h1] at hpt
      refine ⟨c, hcmem, hcs, (Option.some.inj hpt).symm,
        fun c' hc' hcs' => ?_⟩
      exact h2 ▸ hc c' hc' hcs'
  · intro hnone
    rcases hb with ⟨h1, -⟩ | ⟨c, hcmem, hcs, -, -⟩
    · rw [find_player_triangle]
      exact h1
    · exact absurd hcs (hnone c hcmem)

theorem marker_filter_and_selection_witness :
    find_player_triangle {} [⟨[(5, 5)], 10, 10⟩, ⟨[(7, 7)], 100, 300⟩] =
      none :=
  (marker_filter_and_selection {}
      [⟨[(5, 5)], 10, 10⟩, ⟨[(7, 7)], 100, 300⟩] (by decide)).2 (by
    intro c hc
    rcases List.mem_cons.mp hc with rfl | hc'
    · intro hs
      norm_num [survives, solidity] at hs
    · rcases List.mem_cons.mp hc' with rfl | hc''
      · intro hs
        norm_num [survives, solidity] at hs
      · exact absurd hc'' (List.not_mem_nil c))

theorem avg_floor_bounds (l : List ℤ) (b : ℤ) (hne : l ≠ [])
    (h0 : ∀ x ∈ l, 0 ≤ x) (h1 : ∀ x ∈ l, x < b) :
    0 ≤ pyInt ((l.sum : ℚ) / (l.length : ℚ)) ∧
      pyInt ((l.sum : ℚ) / (l.length : ℚ)) < b := by
  have hn : 0 < l.length := List.length_pos.mpr hne
  have hnq : (0 : ℚ) < (l.length : ℚ) := by exact_mod_cast hn
  have hs0 : (0 : ℤ) ≤ l.sum := List.sum_nonneg h0
  have hsle : l.sum ≤ (l.length : ℤ) * (b - 1) := by
    have h := List.sum_le_card_nsmul l (b - 1) (fun x hx => by
      have := h1 x hx; omega)
    simpa [nsmul_eq_mul] using h
  have hq0 : (0 : ℚ) ≤ (l.sum : ℚ) / (l.length : ℚ) :=
    div_nonneg (by exact_mod_cast hs0) (le_of_lt hnq)
  have hq1 : (l.sum : ℚ) / (l.length : ℚ) ≤ ((b : ℚ) - 1) := by
    rw [div_le_iff₀ hnq, mul_comm]
    exact_mod_cast hsle
  simp only [pyInt, if_pos hq0]
  refine ⟨Int.floor_nonneg.mpr hq0, ?_⟩
  have hcast : ((b - 1 : ℤ) : ℚ) = (b : ℚ) - 1 := by push_cast; ring
  have h2 : ⌊(l.sum : ℚ) / (l.length : ℚ)⌋ ≤ b - 1 := by
    calc ⌊(l.sum : ℚ) / (l.length : ℚ)⌋ ≤ ⌊((b : ℚ) - 1)⌋ :=
          Int.floor_le_floor hq1
      _ = b - 1 := by rw [← hcast, Int.floor_intCast]
  omega

theorem centroid_bounds {c : Contour} {w h : ℤ} (hne : c.pts ≠ [])
    (hb : ∀ p ∈ c.pts, 0 ≤ p.1 ∧ p.1 < w ∧ 0 ≤ p.2 ∧ p.2 < h) :
    0 ≤ c.centroid.1 ∧ c.centroid.1 < w ∧
      0 ≤ c.centroid.2 ∧ c.centroid.2 < h := by
  have hx := avg_floor_bounds (c.pts.map Prod.fst) w
    (by simpa using hne)
    (by intro x hmx
        obtain ⟨p, hp, rfl⟩ := List.mem_map.mp hmx
        exact (hb p hp).1)
    (by intro x hmx
        obtain ⟨p, hp, rfl⟩ := List.mem_map.mp hmx
        exact (hb p hp).2.1)
  have hy := avg_floor_bounds (c.pts.map Prod.snd) h
    (by simpa using hne)
    (by intro x hmx
        obtain ⟨p, hp, rfl⟩ := List.mem_map.mp hmx
        exact (hb p hp).2.2.1)
    (by intro x hmx
        obtain ⟨p, hp, rfl⟩ := List.mem_map.mp hmx
        exact (hb p hp).2.2.2)
  rw [List.length_map] at hx hy
  simp only [Contour.centroid, Contour.m00, Contour.m10, Contour.m01]
  exact ⟨hx.1, hx.2, hy.1, hy.2⟩

/-- C10: a returned marker centroid lies strictly inside the frame, so with
any positive crop radius the crop around it is non-empty and the marker's
local coordinates index inside the crop. -/
theorem centroid_within_frame_bounds (cfg : Config) (w h : ℤ)
    (contours : List Contour) (cx cy : ℤ)
    (hne : ∀ c ∈ contours, c.pts ≠ [])
    (hb : ∀ c ∈ contours, ∀ p ∈ c.pts,
      0 ≤ p.1 ∧ p.1 < w ∧ 0 ≤ p.2 ∧ p.2 < h)
    (hr : 0 < cfg.crop_radius)
    (hf : find_player_triangle cfg contours = some (cx, cy)) :
    (0 ≤ cx ∧ cx < w ∧ 0 ≤ cy ∧ cy < h) ∧
    ((crop_around cfg h w cx cy).1.x1 < (crop_around cfg h w cx cy).1.x2 ∧
     (crop_around cfg h w cx cy).1.y1 < (crop_around cfg h w cx cy).1.y2 ∧
     0 ≤ (crop_around cfg h w cx cy).2.1 ∧
     (crop_around cfg h w cx cy).2.1 <
       (crop_around cfg h w cx cy).1.x2 - (crop_around cfg h w cx cy).1.x1 ∧
     0 ≤ (crop_around cfg h w cx cy).2.2 ∧
     (crop_around cfg h w cx cy).2.2 <
       (crop_around cfg h w cx cy).1.y2 - (crop_around cfg h w cx cy).1.y1) := by
  obtain ⟨-, hbr, -⟩ := fpt_fold_spec cfg contours (none, 0) hne
  rw [find_player_triangle] at hf
  rcases hbr with ⟨h1, -⟩ | ⟨c, hcmem, -, h1, -⟩
  · rw [h1] at hf
    exact Option.noConfusion hf
  · rw [h1] at hf
    have hcc : c.centroid = (cx, cy) := Option.some.inj hf
    have hcb := centroid_bounds (hne c hcmem) (hb c hcmem)
    rw [hcc] at hcb
    dsimp only at hcb
    obtain ⟨b1, b2, b3, b4⟩ := hcb
    refine ⟨⟨b1, b2, b3, b4⟩, ?_, ?_, ?_, ?_, ?_, ?_⟩
    · show max 0 (cx - cfg.crop_radius) < min w (cx + cfg.crop_radius)
      omega
    · show max 0 (cy - cfg.crop_radius) < min h (cy + cfg.crop_radius)
      omega
    · show 0 ≤ cx - max 0 (cx - cfg.crop_radius)
      omega
    · show cx - max 0 (cx - cfg.crop_radius) <
        min w (cx + cfg.crop_radius) - max 0 (cx - cfg.crop_radius)
      omega
    · show 0 ≤ cy - max 0 (cy - cfg.crop_radius)
      omega
    · show cy - max 0 (cy - cfg.crop_radius) <
        min h (cy + cfg.crop_radius) - max 0 (cy - cfg.crop_radius)
      omega

theorem centroid_within_frame_bounds_witness :
    ((0 : ℤ) ≤ 20 ∧ (20 : ℤ) < 400 ∧ (0 : ℤ) ≤ 30 ∧ (30 : ℤ) < 400) ∧
    ((crop_around {} 400 400 20 30).1.x1 <
       (crop_around {} 400 400 20 30).1.x2 ∧
     (crop_around {} 400 400 20 30).1.y1 <
       (crop_around {} 400 400 20 30).1.y2 ∧
     0 ≤ (crop_around {} 400 400 20 30).2.1 ∧
     (crop_around {} 400 400 20 30).2.1 <
       (crop_around {} 400 400 20 30).1.x2 -
         (crop_around {} 400 400 20 30).1.x1 ∧
     0 ≤ (crop_around {} 400 400 20 30).2.2 ∧
     (crop_around {} 400 400 20 30).2.2 <
       (crop_around {} 400 400 20 30).1.y2 -
         (crop_around {} 400 400 20 30).1.y1) :=
  centroid_within_frame_bounds {} 400 400 [⟨[(20, 30)], 100, 110⟩] 20 30
    (by decide) (by decide) (by decide)
    (by norm_num [find_player_triangle, fptStep, Contour.m00, Contour.m10,
      Contour.m01, Contour.centroid, pyInt])

end Foxholed
